import Mathlib

/-!
A verification development for the `terminator` desktop UI automation engine.

The engine itself (Desktop handle, Locator, Selector Engine, Element Tree
Model, Action Dispatcher) is not present in the repository snapshot; only a
client example script is. All engine definitions below are therefore modelled
from the specification document, faithful to its words, and the claims are
settled against that model.
-/

/-- Bounding rectangle of a UI element in screen coordinates. -/
structure Rect where
  x : Int
  y : Int
  w : Int
  h : Int
deriving DecidableEq

/-- Modelled from the spec: attributes of a `NativeElement` accessibility
node: role tag, display name, optional platform automation id, optional
bounding rectangle, enabled/visible flags. The `eid` field is the opaque
handle identity used by the backend liveness and invocation maps. -/
structure Attrs where
  eid : Nat
  role : String
  name : String
  nativeId : Option String
  rect : Option Rect
  enabled : Bool
  visible : Bool
deriving DecidableEq

/-- Modelled from the spec: the Element Tree Model, an in-memory view over a
subtree of the native accessibility hierarchy: each node carries its
attributes and an ordered sequence of children. -/
inductive UITree where
  | node (attrs : Attrs) (children : List UITree)

/-- Attributes of the root node of a subtree. -/
def UITree.attrs : UITree → Attrs
  | .node a _ => a

/-- Ordered children of the root node of a subtree. -/
def UITree.children : UITree → List UITree
  | .node _ cs => cs

/-- Modelled from the spec: one stage of a parsed Selector: a role filter
with a name (`Pane:Settings`), a platform automation id filter
(`nativeid:UsernameField`), or a bare value matching by visible name at any
role. -/
inductive SelectorStage where
  | roleFilter (role : String) (name : String)
  | nativeId (id : String)
  | nameOnly (value : String)
deriving DecidableEq

/-- Modelled from the spec: a Selector is an ordered sequence of stages. -/
def Selector := List SelectorStage

/-- Modelled from the spec: a structured parse failure, carrying the stage
index and the raw stage text. -/
structure SelectorParseError where
  stageIndex : Nat
  raw : String
deriving DecidableEq

/-- Modelled from the spec: the role tags recognised as stage filters
(`Pane`, `TabItem`, `Button`, and other UI-role tags). -/
def roleTags : List String :=
  ["Window", "Pane", "TabItem", "Button", "TextBox", "CheckBox", "ComboBox",
   "Edit", "Document", "List", "ListItem", "Menu", "MenuItem", "Text",
   "Tree", "TreeItem", "Group"]

/-- Extend a colon-split result with one more leading character. -/
def breakColonCore (c : Char) : Option (List Char × List Char) → Option (List Char × List Char)
  | none => none
  | some (p, v) => some (c :: p, v)

/-- Split a character list at the first colon: `some (before, after)` when a
colon occurs, `none` otherwise; `before` is colon-free. -/
def breakColon : List Char → Option (List Char × List Char)
  | [] => none
  | c :: cs => if c = ':' then some ([], cs) else breakColonCore c (breakColon cs)

/-- Classify one stage text from its colon decomposition. -/
def parseStageCore (s : List Char) : Option (List Char × List Char) → SelectorStage
  | none => .nameOnly (String.mk s)
  | some (p, v) =>
    if String.mk p = "nativeid" then .nativeId (String.mk v)
    else if roleTags.contains (String.mk p) then .roleFilter (String.mk p) (String.mk v)
    else .nameOnly (String.mk s)

/-- Modelled from the spec: parse one stage `Tag:Value | Value`. A recognised
role tag before the first colon gives a role filter, `nativeid` gives an id
filter, anything else is a bare name match on the whole stage text. An empty
stage is malformed. -/
def parseStage (s : List Char) : Option SelectorStage :=
  if s = [] then none else some (parseStageCore s (breakColon s))

/-- Extend a slash-split with one more leading character. -/
def splitSlashCore (c : Char) : List (List Char) → List (List Char)
  | [] => [[]]
  | g :: gs => if c = '/' then [] :: g :: gs else (c :: g) :: gs

/-- Split a character list on `/`, keeping empty segments. -/
def splitSlash : List Char → List (List Char)
  | [] => [[]]
  | c :: cs => splitSlashCore c (splitSlash cs)

/-- Join segments with `/` between them. -/
def joinSlash : List (List Char) → List Char
  | [] => []
  | [x] => x
  | x :: y :: rest => x ++ '/' :: joinSlash (y :: rest)

/-- Parse a list of stage texts, numbering stages for error reports. -/
def parseStages : Nat → List (List Char) → Except SelectorParseError (List SelectorStage)
  | _, [] => .ok []
  | i, s :: rest =>
    match parseStage s with
    | none => .error ⟨i, String.mk s⟩
    | some st =>
      match parseStages (i + 1) rest with
      | .error e => .error e
      | .ok sts => .ok (st :: sts)

/-- Modelled from the spec: the Selector Engine parser for the selector DSL
`Stage[/Stage]*`. -/
def parseSelector (s : String) : Except SelectorParseError (List SelectorStage) :=
  parseStages 0 (splitSlash s.data)

/-- Serialise one stage back to its textual form. -/
def serializeStage : SelectorStage → List Char
  | .roleFilter r n => r.data ++ ':' :: n.data
  | .nativeId i => "nativeid".data ++ ':' :: i.data
  | .nameOnly v => v.data

/-- Modelled from the spec: re-serialise a parsed Selector to the DSL. -/
def serializeSelector (sel : List SelectorStage) : String :=
  String.mk (joinSlash (sel.map serializeStage))

/-- Modelled from the spec: breadth-first enumeration of the frontier's
levels up to a depth bound; exceeding the bound stops expansion without
error. Level order gives the deterministic top-down, left-to-right order. -/
def bfsFrontier : Nat → List UITree → List UITree
  | 0, _ => []
  | d + 1, frontier => frontier ++ bfsFrontier d (frontier.flatMap UITree.children)

/-- Modelled from the spec: the Element Tree Model's bounded breadth-first
enumeration of the proper descendants of one element. -/
def descendantsBFS (d : Nat) (t : UITree) : List UITree :=
  bfsFrontier d t.children

/-- Modelled from the spec: case-sensitive exact match of one stage against
one element's attributes; role filters additionally require the role tag. -/
def matchesStage : SelectorStage → Attrs → Bool
  | .roleFilter r n, a => a.role == r && a.name == n
  | .nativeId i, a => a.nativeId == some i
  | .nameOnly v, a => a.name == v

/-- Modelled from the spec: one resolution step: each frontier match fans out
independently, the next stage matching only among its proper descendants, in
bounded breadth-first order. -/
def stepStage (d : Nat) (st : SelectorStage) (frontier : List UITree) : List UITree :=
  frontier.flatMap (fun t => (descendantsBFS d t).filter (fun u => matchesStage st u.attrs))

/-- Modelled from the spec: iterative stage-by-stage filtering of a frontier
set through the selector chain. -/
def resolveFrontier (d : Nat) : List SelectorStage → List UITree → List UITree
  | [], frontier => frontier
  | st :: rest, frontier => resolveFrontier d rest (stepStage d st frontier)

/-- Modelled from the spec: full evaluation of a selector chain against the
tree rooted at `root`: the ordered set of leaf-stage matches (`all()`). -/
def resolveAll (d : Nat) (sel : List SelectorStage) (root : UITree) : List UITree :=
  resolveFrontier d sel [root]

/-- Proper-descendant relation on UI trees. -/
inductive IsDesc : UITree → UITree → Prop
  | child {t c : UITree} : c ∈ t.children → IsDesc t c
  | step {t c x : UITree} : c ∈ t.children → IsDesc c x → IsDesc t x

/-- Modelled from the spec: stage-by-stage resolution as a relation, for
stating that matching is deterministic with respect to a tree snapshot. -/
inductive ResolvesTo (d : Nat) : List SelectorStage → List UITree → List UITree → Prop
  | done {frontier : List UITree} : ResolvesTo d [] frontier frontier
  | stage {st : SelectorStage} {rest : List SelectorStage} {frontier out : List UITree} :
      ResolvesTo d rest (stepStage d st frontier) out →
      ResolvesTo d (st :: rest) frontier out

/-- Modelled from the spec: the closed caller-facing error taxonomy. -/
inductive EngineError where
  | elementNotFound
  | staleElement
  | invalidOperation
  | platformApi (code : Nat)
  | applicationNotRunning
deriving DecidableEq

/-- Modelled from the spec: the retry-until-timeout polling loop of
`first`. `tick` is the index of the current poll (one poll every poll
interval); `fuel` is the number of further polls the timeout budget allows.
Returns the result together with the tick at which polling stopped. -/
def firstAux (snapshot : Nat → UITree) (d : Nat) (sel : List SelectorStage) :
    Nat → Nat → Except EngineError UITree × Nat
  | tick, 0 =>
    match (resolveAll d sel (snapshot tick)).head? with
    | some e => (.ok e, tick)
    | none => (.error .elementNotFound, tick)
  | tick, fuel + 1 =>
    match (resolveAll d sel (snapshot tick)).head? with
    | some e => (.ok e, tick)
    | none => firstAux snapshot d sel (tick + 1) fuel

/-- Modelled from the spec: `first(timeout)`: poll the Selector Engine at a
fixed interval `pollMs` until a match appears or the timeout `timeoutMs`
elapses; expiry with zero matches yields `ElementNotFound`. The changing
tree is modelled as a function from poll tick to snapshot. -/
def firstWithTimeout (snapshot : Nat → UITree) (d : Nat) (sel : List SelectorStage)
    (timeoutMs pollMs : Nat) : Except EngineError UITree × Nat :=
  firstAux snapshot d sel 0 (timeoutMs / pollMs)

/-- Modelled from the spec: the Accessibility Backend's per-handle liveness
check and native invocation outcome (`none` means the native call succeeds,
`some code` a platform failure with that code). -/
structure Backend where
  alive : Nat → Bool
  invokeErr : Nat → Option Nat

/-- Modelled from the spec: the target application's UI state observable
through the engine: per-element text content and the current input focus. -/
structure AppState where
  texts : Nat → String
  focus : Option Nat

/-- Focus an element and set its text, as the backend's native text-input
action does. -/
def setText (st : AppState) (eid : Nat) (s : String) : AppState :=
  { texts := fun i => if i = eid then s else st.texts i, focus := some eid }

/-- Trace entries for the native calls the engine issues. -/
inductive NativeCall where
  | resolveQuery (tick : Nat)
  | invokeClick (eid : Nat)
  | invokeSetFocus (eid : Nat)
  | invokeSetText (eid : Nat) (text : String)
  | readText (eid : Nat)
  | readAttr (eid : Nat) (attr : String)
  | drawHighlight (r : Rect) (durationMs : Nat)
deriving DecidableEq

/-- The high-level operations of the Action Dispatcher. -/
inductive DispatchOp where
  | click
  | typeText (text : String)
  | highlight (durationMs : Nat)
  | getText
  | getAttr (attr : String)
deriving DecidableEq

/-- Typed results of dispatcher operations; `highlighted true` is a success
carrying a reported warning (element had no bounding rectangle). -/
inductive DispatchOut where
  | unit
  | text (s : String)
  | attrVal (v : Option String)
  | highlighted (warned : Bool)
deriving DecidableEq

/-- Modelled from the spec: the roles whose elements accept text input. -/
def textInputRoles : List String := ["TextBox", "Edit", "Document"]

/-- Attribute read on an element's metadata. -/
def attrLookup (e : Attrs) : String → Option String
  | "role" => some e.role
  | "name" => some e.name
  | "nativeid" => e.nativeId
  | _ => none

/-- Modelled from the spec: the Action Dispatcher. Every operation first
verifies liveness (a stale handle yields `StaleElementError` before any
native call), then checks the capability precondition, then performs the
backend action exactly once. Returns the typed result, the new application
state and the trace of native calls issued. -/
def dispatch (be : Backend) (st : AppState) (e : Attrs) (op : DispatchOp) :
    Except EngineError DispatchOut × AppState × List NativeCall :=
  if be.alive e.eid then
    match op with
    | .click =>
      if e.enabled then
        match be.invokeErr e.eid with
        | some code => (.error (.platformApi code), st, [.invokeClick e.eid])
        | none => (.ok .unit, st, [.invokeClick e.eid])
      else (.error .invalidOperation, st, [])
    | .typeText s =>
      if textInputRoles.contains e.role then
        match be.invokeErr e.eid with
        | some code =>
          (.error (.platformApi code), st, [.invokeSetFocus e.eid, .invokeSetText e.eid s])
        | none =>
          (.ok .unit, setText st e.eid s, [.invokeSetFocus e.eid, .invokeSetText e.eid s])
      else (.error .invalidOperation, st, [])
    | .highlight dur =>
      match e.rect with
      | none => (.ok (.highlighted true), st, [])
      | some r => (.ok (.highlighted false), st, [.drawHighlight r dur])
    | .getText =>
      match be.invokeErr e.eid with
      | some code => (.error (.platformApi code), st, [.readText e.eid])
      | none => (.ok (.text (st.texts e.eid)), st, [.readText e.eid])
    | .getAttr a =>
      match be.invokeErr e.eid with
      | some code => (.error (.platformApi code), st, [.readAttr e.eid a])
      | none => (.ok (.attrVal (attrLookup e a)), st, [.readAttr e.eid a])
  else (.error .staleElement, st, [])

/-- Modelled from the spec: a caller-level locator action: re-resolve with
the retry-until-timeout policy (each poll traced as a `resolveQuery`), then
dispatch the action once against the resolved element; resolution failure
surfaces `ElementNotFound` and dispatches nothing. -/
def locatorAction (be : Backend) (snapshot : Nat → UITree) (st : AppState) (d : Nat)
    (sel : List SelectorStage) (timeoutMs pollMs : Nat) (op : DispatchOp) :
    Except EngineError DispatchOut × AppState × List NativeCall :=
  match firstWithTimeout snapshot d sel timeoutMs pollMs with
  | (.error err, tick) =>
    (.error err, st, (List.range (tick + 1)).map NativeCall.resolveQuery)
  | (.ok elt, tick) =>
    match dispatch be st elt.attrs op with
    | (res, st1, tr) =>
      (res, st1, (List.range (tick + 1)).map NativeCall.resolveQuery ++ tr)

/-- Native calls that submit a mutating action to the target application. -/
def isSubmitCall : NativeCall → Bool
  | .invokeClick _ => true
  | .invokeSetText _ _ => true
  | _ => false

/-- Modelled from the spec: lifecycle phases of an application handle. -/
inductive AppPhase where
  | launching
  | ready
  | closed
deriving DecidableEq

/-- Modelled from the spec: an application handle: process identity, the
lifecycle phase and the root accessibility element of its main window. -/
structure ApplicationHandle where
  pid : Nat
  phase : AppPhase
  root : UITree

/-- Modelled from the spec: `open_application` delegates launching to the
external collaborator; the core's responsibility begins once a root
accessibility element is obtainable, so the returned handle is already in
the `Ready` state with the root element attached. -/
def open_application (pid : Nat) (root : UITree) : ApplicationHandle :=
  { pid := pid, phase := .ready, root := root }

/-- Modelled from the spec: operations against a handle not in the `Ready`
state fail with `ApplicationNotRunning`. -/
def guardReady (h : ApplicationHandle) : Except EngineError Unit :=
  if h.phase = .ready then .ok () else .error .applicationNotRunning

/-- Modelled from the spec: a Locator value: root scope, selector chain and
default timeout. -/
structure Locator where
  rootScope : UITree
  selector : List SelectorStage
  defaultTimeoutMs : Nat

/-- Modelled from the spec: locator creation scoped at the handle's root. -/
def handleLocator (h : ApplicationHandle) (sel : List SelectorStage) (tmo : Nat) :
    Except EngineError Locator :=
  match guardReady h with
  | .error e => .error e
  | .ok _ => .ok ⟨h.root, sel, tmo⟩

/-- Modelled from the spec: highlight invoked directly on a handle's root
window element. -/
def handleHighlight (be : Backend) (st : AppState) (h : ApplicationHandle) (dur : Nat) :
    Except EngineError DispatchOut × AppState × List NativeCall :=
  match guardReady h with
  | .error e => (.error e, st, [])
  | .ok _ => dispatch be st h.root.attrs (.highlight dur)

/-- Modelled from the spec: resolution via `first()` on a handle's root. -/
def handleFirst (h : ApplicationHandle) (snapshot : Nat → UITree) (d : Nat)
    (sel : List SelectorStage) (timeoutMs pollMs : Nat) :
    Except EngineError UITree × Nat :=
  match guardReady h with
  | .error e => (.error e, 0)
  | .ok _ => firstWithTimeout snapshot d sel timeoutMs pollMs

theorem breakColon_eq : ∀ {s p v : List Char}, breakColon s = some (p, v) → s = p ++ ':' :: v := by
  intro s
  induction s with
  | nil => intro p v h; simp [breakColon] at h
  | cons c cs ih =>
    intro p v h
    unfold breakColon at h
    by_cases hc : c = ':'
    · rw [if_pos hc] at h
      simp only [Option.some.injEq, Prod.mk.injEq] at h
      obtain ⟨hp, hv⟩ := h
      subst hp; subst hv; subst hc
      rfl
    · rw [if_neg hc] at h
      cases hb : breakColon cs with
      | none => rw [hb] at h; simp [breakColonCore] at h
      | some pv2 =>
        obtain ⟨p2, v2⟩ := pv2
        rw [hb] at h
        simp only [breakColonCore, Option.some.injEq, Prod.mk.injEq] at h
        obtain ⟨hp, hv⟩ := h
        subst hp; subst hv
        simp [ih hb]

theorem parseStage_serialize {s : List Char} {st : SelectorStage}
    (h : parseStage s = some st) : serializeStage st = s := by
  unfold parseStage at h
  by_cases hs : s = []
  · rw [if_pos hs] at h; simp at h
  · rw [if_neg hs] at h
    simp only [Option.some.injEq] at h
    subst h
    cases hb : breakColon s with
    | none => simp [parseStageCore, serializeStage]
    | some pv =>
      obtain ⟨p, v⟩ := pv
      have hs2 : s = p ++ ':' :: v := breakColon_eq hb
      by_cases hni : String.mk p = "nativeid"
      · have hp : p = ("nativeid" : String).data := congrArg String.data hni
        simp [parseStageCore, hni, serializeStage, hs2, hp]
      · by_cases hrt : String.mk p ∈ roleTags
        · simp [parseStageCore, hni, hrt, serializeStage, hs2]
        · simp [parseStageCore, hni, hrt, serializeStage]

theorem splitSlash_ne_nil : ∀ l : List Char, splitSlash l ≠ [] := by
  intro l
  cases l with
  | nil => simp [splitSlash]
  | cons c cs =>
    unfold splitSlash
    cases splitSlash cs with
    | nil => simp [splitSlashCore]
    | cons g gs =>
      by_cases hc : c = '/' <;> simp [splitSlashCore, hc]

theorem joinSlash_splitSlash : ∀ l : List Char, joinSlash (splitSlash l) = l := by
  intro l
  induction l with
  | nil => rfl
  | cons c cs ih =>
    unfold splitSlash
    cases hs : splitSlash cs with
    | nil => exact absurd hs (splitSlash_ne_nil cs)
    | cons g gs =>
      rw [hs] at ih
      by_cases hc : c = '/'
      · simp only [splitSlashCore, if_pos hc, joinSlash, ih, List.nil_append, hc]
      · simp only [splitSlashCore, if_neg hc]
        cases gs with
        | nil => simpa [joinSlash] using congrArg (c :: ·) ih
        | cons g2 rest => simpa [joinSlash] using congrArg (c :: ·) ih

theorem parseStages_serialize :
    ∀ (segs : List (List Char)) (i : Nat) (sts : List SelectorStage),
    parseStages i segs = .ok sts → sts.map serializeStage = segs := by
  intro segs
  induction segs with
  | nil =>
    intro i sts h
    simp only [parseStages, Except.ok.injEq] at h
    subst h
    rfl
  | cons s rest ih =>
    intro i sts h
    unfold parseStages at h
    cases hp : parseStage s with
    | none => rw [hp] at h; exact absurd h (by simp)
    | some st =>
      rw [hp] at h
      cases hr : parseStages (i + 1) rest with
      | error e => rw [hr] at h; exact absurd h (by simp)
      | ok sts2 =>
        rw [hr] at h
        simp only [Except.ok.injEq] at h
        subst h
        simp [parseStage_serialize hp, ih _ _ hr]

/-- C4: for every selector string accepted by the parser, re-serialising the
parsed stages reproduces the input, so parsing, serialising and parsing
again yields the same Selector: parse(serialize(parse s)) = parse s. -/
theorem parse_serialize_parse_idem (s : String) (sel : List SelectorStage)
    (h : parseSelector s = .ok sel) :
    serializeSelector sel = s ∧ parseSelector (serializeSelector sel) = parseSelector s := by
  have h1 : sel.map serializeStage = splitSlash s.data := parseStages_serialize _ 0 _ h
  have h2 : serializeSelector sel = s := by
    unfold serializeSelector
    rw [h1, joinSlash_splitSlash]
  exact ⟨h2, by rw [h2]⟩

/-- Witness for C4 at the spec's example selector. -/
theorem parse_serialize_parse_idem_witness :
    serializeSelector [.roleFilter "Pane" "Settings", .nativeId "UsernameField"] =
      "Pane:Settings/nativeid:UsernameField" ∧
    parseSelector (serializeSelector [.roleFilter "Pane" "Settings", .nativeId "UsernameField"]) =
      parseSelector "Pane:Settings/nativeid:UsernameField" :=
  parse_serialize_parse_idem "Pane:Settings/nativeid:UsernameField"
    [.roleFilter "Pane" "Settings", .nativeId "UsernameField"] (by rfl)

/-- Attributes with the given identity, role and name and no automation id,
no rectangle, enabled and visible. -/
def mkAttrs (eid : Nat) (role name : String) : Attrs :=
  { eid := eid, role := role, name := name, nativeId := none, rect := none,
    enabled := true, visible := true }

/-- A backend on which every handle is live and every native call succeeds. -/
def allAliveBackend : Backend := { alive := fun _ => true, invokeErr := fun _ => none }

/-- A backend on which every handle has gone stale. -/
def deadBackend : Backend := { alive := fun _ => false, invokeErr := fun _ => none }

/-- An application state with empty texts and no focus. -/
def emptyState : AppState := { texts := fun _ => "", focus := none }

/-- C1: every dispatcher operation on a stale handle returns
`StaleElementError`: no native call is attempted (empty trace), the
application state is untouched, and no success is reported. -/
theorem stale_handle_rejected (be : Backend) (st : AppState) (e : Attrs) (op : DispatchOp)
    (h : be.alive e.eid = false) :
    dispatch be st e op = (.error .staleElement, st, []) := by
  simp [dispatch, h]

/-- Witness for C1: clicking a destroyed button yields `StaleElementError`. -/
theorem stale_handle_rejected_witness :
    dispatch deadBackend emptyState (mkAttrs 7 "Button" "OK") .click =
      (.error .staleElement, emptyState, []) :=
  stale_handle_rejected deadBackend emptyState (mkAttrs 7 "Button" "OK") .click rfl

/-- C8: highlight never changes the application state; on a live element
with a rectangle it only draws the transient outline, and on a live element
without a rectangle it is a no-op success carrying a warning, not an
error. -/
theorem highlight_frame (be : Backend) (st : AppState) (e : Attrs) (dur : Nat) :
    (dispatch be st e (.highlight dur)).2.1 = st
    ∧ (be.alive e.eid = true → e.rect = none →
        dispatch be st e (.highlight dur) = (.ok (.highlighted true), st, []))
    ∧ (∀ r, be.alive e.eid = true → e.rect = some r →
        dispatch be st e (.highlight dur) =
          (.ok (.highlighted false), st, [.drawHighlight r dur])) := by
  refine ⟨?_, ?_, ?_⟩
  · by_cases h : be.alive e.eid = true
    · cases hr : e.rect <;> simp [dispatch, h, hr]
    · simp [dispatch, h]
  · intro ha hr
    simp [dispatch, ha, hr]
  · intro r ha hr
    simp [dispatch, ha, hr]

/-- Witness for C8: highlighting a live element without a rectangle is a
warned no-op that leaves the state unchanged. -/
theorem highlight_frame_witness :
    dispatch allAliveBackend emptyState (mkAttrs 3 "Button" "OK") (.highlight 1000) =
      (.ok (.highlighted true), emptyState, []) :=
  (highlight_frame allAliveBackend emptyState (mkAttrs 3 "Button" "OK") 1000).2.1 rfl rfl

/-- C9: on a live text-input element with a succeeding backend, `type_text`
then `get_text` on the same element returns the typed string; on a live
element whose role cannot accept text, `type_text` fails with
`InvalidOperation`. -/
theorem type_text_get_text (be : Backend) (st : AppState) (e : Attrs) (s : String)
    (halive : be.alive e.eid = true) :
    (textInputRoles.contains e.role = true → be.invokeErr e.eid = none →
      (dispatch be st e (.typeText s)).1 = .ok .unit
      ∧ (dispatch be (dispatch be st e (.typeText s)).2.1 e .getText).1 = .ok (.text s))
    ∧ (textInputRoles.contains e.role = false →
      (dispatch be st e (.typeText s)).1 = .error .invalidOperation) := by
  constructor
  · intro hrole herr
    simp only [List.contains, List.elem_eq_mem, decide_eq_true_eq] at hrole
    simp [dispatch, halive, hrole, herr, setText]
  · intro hrole
    simp only [List.contains, List.elem_eq_mem, decide_eq_false_iff_not] at hrole
    simp [dispatch, halive, hrole]

/-- Witness for C9: typing "alice" into a live TextBox and reading it back. -/
theorem type_text_get_text_witness :
    (dispatch allAliveBackend emptyState (mkAttrs 1 "TextBox" "Test") (.typeText "alice")).1 = .ok .unit
    ∧ (dispatch allAliveBackend
        (dispatch allAliveBackend emptyState (mkAttrs 1 "TextBox" "Test") (.typeText "alice")).2.1
        (mkAttrs 1 "TextBox" "Test") .getText).1 = .ok (.text "alice") :=
  (type_text_get_text allAliveBackend emptyState (mkAttrs 1 "TextBox" "Test") "alice" rfl).1 rfl rfl

/-- The leaf pane named "A" of the example tree below. -/
def nodeA : UITree := .node (mkAttrs 2 "Pane" "A") []

/-- A tree in which the element named "B" is an ancestor of the element
named "A": root window, pane "B" under it, pane "A" under "B". -/
def treeBA : UITree := .node (mkAttrs 0 "Window" "root") [.node (mkAttrs 1 "Pane" "B") [nodeA]]

theorem bfsFrontier_desc : ∀ (n : Nat) (fr : List UITree) (x : UITree),
    x ∈ bfsFrontier n fr → ∃ f ∈ fr, x = f ∨ IsDesc f x := by
  intro n
  induction n with
  | zero => intro fr x h; simp [bfsFrontier] at h
  | succ m ih =>
    intro fr x h
    simp only [bfsFrontier, List.mem_append] at h
    cases h with
    | inl h => exact ⟨x, h, .inl rfl⟩
    | inr h =>
      obtain ⟨c, hc, hcx⟩ := ih _ x h
      rw [List.mem_flatMap] at hc
      obtain ⟨f, hf, hcf⟩ := hc
      refine ⟨f, hf, .inr ?_⟩
      cases hcx with
      | inl he => subst he; exact .child hcf
      | inr hd => exact .step hcf hd

theorem descendantsBFS_isDesc {d : Nat} {t x : UITree} (h : x ∈ descendantsBFS d t) :
    IsDesc t x := by
  obtain ⟨c, hc, hcx⟩ := bfsFrontier_desc d t.children x h
  cases hcx with
  | inl he => subst he; exact .child hc
  | inr hd => exact .step hc hd

theorem stepStage_mem {d : Nat} {st : SelectorStage} {frontier : List UITree} {x : UITree} :
    x ∈ stepStage d st frontier ↔
      ∃ f, f ∈ frontier ∧ x ∈ descendantsBFS d f ∧ matchesStage st x.attrs = true := by
  simp [stepStage, List.mem_flatMap, List.mem_filter]

/-- C5: selector stages compose as a strict parent-to-descendant path: every
element produced by a stage step matches that stage and is a proper
descendant of some element of the previous frontier; consequently the chain
`A/B` yields no match on the tree where "B" is an ancestor of "A". -/
theorem stage_descendant_scope :
    (∀ (d : Nat) (st : SelectorStage) (frontier : List UITree) (x : UITree),
      x ∈ stepStage d st frontier →
        matchesStage st x.attrs = true ∧ ∃ f, f ∈ frontier ∧ IsDesc f x)
    ∧ resolveAll 5 [.nameOnly "A", .nameOnly "B"] treeBA = [] := by
  constructor
  · intro d st frontier x hx
    rw [stepStage_mem] at hx
    obtain ⟨f, hf, hdesc, hmatch⟩ := hx
    exact ⟨hmatch, f, hf, descendantsBFS_isDesc hdesc⟩
  · rfl

/-- Witness for C5: the pane "A" matched under the example tree is matched
by its stage and is a proper descendant of the root. -/
theorem stage_descendant_scope_witness :
    matchesStage (.nameOnly "A") nodeA.attrs = true ∧
      ∃ f, f ∈ [treeBA] ∧ IsDesc f nodeA :=
  stage_descendant_scope.1 5 (.nameOnly "A") [treeBA] nodeA
    (by simp only [show stepStage 5 (SelectorStage.nameOnly "A") [treeBA] = [nodeA] from rfl,
      List.mem_singleton])

/-- C6: every element matching a stage within a frontier element's bounded
breadth-first descendant enumeration appears in the stage's result; a
single-stage resolution returns exactly the breadth-first filter of the
root's descendants, in that stable top-down, left-to-right order; and
`first` returns the head of `all`'s ordering. -/
theorem all_ordering_first_head :
    (∀ (d : Nat) (st : SelectorStage) (root : UITree),
      resolveAll d [st] root = (descendantsBFS d root).filter (fun u => matchesStage st u.attrs))
    ∧ (∀ (d : Nat) (st : SelectorStage) (frontier : List UITree) (x : UITree),
      x ∈ stepStage d st frontier ↔
        ∃ f, f ∈ frontier ∧ x ∈ descendantsBFS d f ∧ matchesStage st x.attrs = true)
    ∧ (∀ (snapshot : Nat → UITree) (d : Nat) (sel : List SelectorStage) (tmo gap : Nat) (e : UITree),
      (resolveAll d sel (snapshot 0)).head? = some e →
      (firstWithTimeout snapshot d sel tmo gap).1 = .ok e) := by
  refine ⟨?_, fun d st fr x => stepStage_mem, ?_⟩
  · intro d st root
    simp [resolveAll, resolveFrontier, stepStage]
  · intro snapshot d sel tmo gap e h
    unfold firstWithTimeout
    cases T0 : tmo / gap with
    | zero => simp [firstAux, h]
    | succ m => simp [firstAux, h]

/-- Witness for C6: an immediately-present match is returned by `first`. -/
theorem all_ordering_first_head_witness :
    (firstWithTimeout (fun _ => treeBA) 5 [.nameOnly "A"] 100 10).1 = .ok nodeA :=
  all_ordering_first_head.2.2 (fun _ => treeBA) 5 [.nameOnly "A"] 100 10 nodeA rfl

theorem resolvesTo_resolveFrontier {d : Nat} :
    ∀ {sel : List SelectorStage} {fr out : List UITree},
    ResolvesTo d sel fr out → out = resolveFrontier d sel fr := by
  intro sel fr out h
  induction h with
  | done => rfl
  | stage h ih => exact ih

theorem resolveFrontier_resolvesTo (d : Nat) :
    ∀ (sel : List SelectorStage) (fr : List UITree),
    ResolvesTo d sel fr (resolveFrontier d sel fr) := by
  intro sel
  induction sel with
  | nil => intro fr; exact .done
  | cons st rest ih => intro fr; exact .stage (ih _)

/-- C7: selector matching is deterministic and pure with respect to a tree
snapshot: any two resolutions of the same parsed selector from the same
frontier produce the same result set, and the resolution relation is total
with `resolveAll` as its unique value. -/
theorem matching_deterministic :
    (∀ (d : Nat) (sel : List SelectorStage) (frontier out1 out2 : List UITree),
      ResolvesTo d sel frontier out1 → ResolvesTo d sel frontier out2 → out1 = out2)
    ∧ (∀ (d : Nat) (sel : List SelectorStage) (root : UITree),
      ResolvesTo d sel [root] (resolveAll d sel root)) := by
  constructor
  · intro d sel fr o1 o2 h1 h2
    rw [resolvesTo_resolveFrontier h1, resolvesTo_resolveFrontier h2]
  · intro d sel root
    exact resolveFrontier_resolvesTo d sel [root]

/-- Witness for C7: two concrete resolutions of the same one-stage selector
against the same snapshot agree. -/
theorem matching_deterministic_witness :
    stepStage 5 (SelectorStage.nameOnly "A") [treeBA] =
      stepStage 5 (SelectorStage.nameOnly "A") [treeBA] :=
  matching_deterministic.1 5 [.nameOnly "A"] [treeBA] _ _ (.stage .done) (.stage .done)

/-- A root window with no children at all. -/
def emptyTree : UITree := .node (mkAttrs 0 "Window" "root") []

/-- A changing tree: empty for the first two poll ticks, then the example
tree (the pane "A" materialises after two poll intervals). -/
def snapLate : Nat → UITree := fun k => if k < 2 then emptyTree else treeBA

theorem firstAux_fail (snapshot : Nat → UITree) (d : Nat) (sel : List SelectorStage) :
    ∀ (fuel tick : Nat),
    (∀ k, tick ≤ k → k ≤ tick + fuel → resolveAll d sel (snapshot k) = []) →
    firstAux snapshot d sel tick fuel = (.error .elementNotFound, tick + fuel) := by
  intro fuel
  induction fuel with
  | zero =>
    intro tick h
    have h0 : resolveAll d sel (snapshot tick) = [] := h tick le_rfl (by omega)
    simp [firstAux, h0]
  | succ m ih =>
    intro tick h
    have h0 : resolveAll d sel (snapshot tick) = [] := h tick le_rfl (by omega)
    have hrec := ih (tick + 1) (fun k hk1 hk2 => h k (by omega) (by omega))
    have hstep : firstAux snapshot d sel tick (m + 1) = firstAux snapshot d sel (tick + 1) m := by
      simp [firstAux, h0]
    rw [hstep, hrec]
    have : tick + 1 + m = tick + (m + 1) := by omega
    rw [this]

theorem firstAux_success (snapshot : Nat → UITree) (d : Nat) (sel : List SelectorStage) :
    ∀ (fuel tick dt : Nat) (e : UITree),
    tick ≤ dt → dt ≤ tick + fuel →
    (∀ k, tick ≤ k → k < dt → resolveAll d sel (snapshot k) = []) →
    (resolveAll d sel (snapshot dt)).head? = some e →
    firstAux snapshot d sel tick fuel = (.ok e, dt) := by
  intro fuel
  induction fuel with
  | zero =>
    intro tick dt e h1 h2 h3 h4
    have hdt : dt = tick := by omega
    subst hdt
    simp [firstAux, h4]
  | succ m ih =>
    intro tick dt e h1 h2 h3 h4
    by_cases he : tick = dt
    · subst he
      simp [firstAux, h4]
    · have hlt : tick < dt := by omega
      have h0 : resolveAll d sel (snapshot tick) = [] := h3 tick le_rfl hlt
      have hrec := ih (tick + 1) dt e (by omega) (by omega)
        (fun k hk1 hk2 => h3 k (by omega) hk2) h4
      simp [firstAux, h0, hrec]

theorem firstAux_error_class (snapshot : Nat → UITree) (d : Nat) (sel : List SelectorStage) :
    ∀ (fuel tick : Nat) (c : EngineError),
    (firstAux snapshot d sel tick fuel).1 = .error c → c = .elementNotFound := by
  intro fuel
  induction fuel with
  | zero =>
    intro tick c h
    unfold firstAux at h
    cases hh : (resolveAll d sel (snapshot tick)).head? with
    | some e => rw [hh] at h; simp at h
    | none => rw [hh] at h; simp at h; exact h.symm
  | succ m ih =>
    intro tick c h
    unfold firstAux at h
    cases hh : (resolveAll d sel (snapshot tick)).head? with
    | some e => rw [hh] at h; simp at h
    | none => rw [hh] at h; exact ih (tick + 1) c h

/-- C2: `first(timeout=T)` polls until a match appears or the budget is
exhausted. With no match over the whole budget it fails with
`ElementNotFound` at the last poll tick, whose elapsed time is within one
poll interval of `T`; with the target appearing at poll tick `dt` inside
the budget it succeeds with that element at tick `dt`, with elapsed time at
most `T`. -/
theorem first_timeout_polling (snapshot : Nat → UITree) (d : Nat) (sel : List SelectorStage)
    (tmo gap : Nat) (hgap : 0 < gap) :
    ((∀ k, k ≤ tmo / gap → resolveAll d sel (snapshot k) = []) →
      firstWithTimeout snapshot d sel tmo gap = (.error .elementNotFound, tmo / gap)
      ∧ (tmo / gap) * gap ≤ tmo ∧ tmo < (tmo / gap) * gap + gap)
    ∧ (∀ dt e, dt ≤ tmo / gap →
      (∀ k, k < dt → resolveAll d sel (snapshot k) = []) →
      (resolveAll d sel (snapshot dt)).head? = some e →
      firstWithTimeout snapshot d sel tmo gap = (.ok e, dt) ∧ dt * gap ≤ tmo) := by
  constructor
  · intro h
    refine ⟨?_, Nat.div_mul_le_self tmo gap, Nat.lt_div_mul_add hgap⟩
    have hfail := firstAux_fail snapshot d sel (tmo / gap) 0 (fun k hk1 hk2 => h k (by omega))
    simpa [firstWithTimeout] using hfail
  · intro dt e hdt hbefore hsome
    constructor
    · exact firstAux_success snapshot d sel (tmo / gap) 0 dt e (Nat.zero_le _) (by omega)
        (fun k hk1 hk2 => hbefore k hk2) hsome
    · calc dt * gap ≤ (tmo / gap) * gap := Nat.mul_le_mul_right gap hdt
        _ ≤ tmo := Nat.div_mul_le_self tmo gap

/-- Witness for C2: with poll interval 10 and timeout 50, a tree that never
contains the target fails with `ElementNotFound` after the full budget, and
a target appearing at poll tick 2 is returned at tick 2. -/
theorem first_timeout_polling_witness :
    (firstWithTimeout (fun _ => emptyTree) 5 [.nameOnly "A"] 50 10 =
        (.error .elementNotFound, 5)
      ∧ 5 * 10 ≤ 50 ∧ 50 < 5 * 10 + 10)
    ∧ (firstWithTimeout snapLate 5 [.nameOnly "A"] 50 10 = (.ok nodeA, 2) ∧ 2 * 10 ≤ 50) :=
  ⟨(first_timeout_polling (fun _ => emptyTree) 5 [.nameOnly "A"] 50 10 (by decide)).1
      (fun k hk => rfl),
    (first_timeout_polling snapLate 5 [.nameOnly "A"] 50 10 (by decide)).2 2 nodeA (by decide)
      (fun k hk => by interval_cases k <;> rfl) rfl⟩

theorem countP_resolve_polls (l : List Nat) :
    (l.map NativeCall.resolveQuery).countP isSubmitCall = 0 := by
  induction l with
  | nil => rfl
  | cons a as ih => simp [List.countP_cons, isSubmitCall, ih]

theorem dispatch_submit_le_one (be : Backend) (st : AppState) (e : Attrs) (op : DispatchOp) :
    ((dispatch be st e op).2.2.countP isSubmitCall) ≤ 1 := by
  by_cases ha : be.alive e.eid = true
  · cases op with
    | click =>
      by_cases hen : e.enabled = true
      · cases hi : be.invokeErr e.eid <;>
          simp [dispatch, ha, hen, hi, isSubmitCall, List.countP_cons]
      · simp [dispatch, ha, hen]
    | typeText s =>
      by_cases hr : e.role ∈ textInputRoles
      · cases hi : be.invokeErr e.eid <;>
          simp [dispatch, ha, hr, hi, isSubmitCall, List.countP_cons]
      · simp [dispatch, ha, hr]
    | highlight dur =>
      cases hr : e.rect <;> simp [dispatch, ha, hr, isSubmitCall, List.countP_cons]
    | getText =>
      cases hi : be.invokeErr e.eid <;>
        simp [dispatch, ha, hi, isSubmitCall, List.countP_cons]
    | getAttr a =>
      cases hi : be.invokeErr e.eid <;>
        simp [dispatch, ha, hi, isSubmitCall, List.countP_cons]
  · simp [dispatch, ha]

theorem dispatch_error_classes (be : Backend) (st : AppState) (e : Attrs) (op : DispatchOp)
    (c : EngineError) (h : (dispatch be st e op).1 = .error c) :
    c = .staleElement ∨ c = .invalidOperation ∨ ∃ n, c = .platformApi n := by
  by_cases ha : be.alive e.eid = true
  · cases op with
    | click =>
      by_cases hen : e.enabled = true
      · cases hi : be.invokeErr e.eid with
        | none => simp [dispatch, ha, hen, hi] at h
        | some n => simp [dispatch, ha, hen, hi] at h; exact .inr (.inr ⟨n, h.symm⟩)
      · simp [dispatch, ha, hen] at h
        exact .inr (.inl h.symm)
    | typeText s =>
      by_cases hr : e.role ∈ textInputRoles
      · cases hi : be.invokeErr e.eid with
        | none => simp [dispatch, ha, hr, hi] at h
        | some n => simp [dispatch, ha, hr, hi] at h; exact .inr (.inr ⟨n, h.symm⟩)
      · simp [dispatch, ha, hr] at h
        exact .inr (.inl h.symm)
    | highlight dur =>
      cases hrc : e.rect <;> simp [dispatch, ha, hrc] at h
    | getText =>
      cases hi : be.invokeErr e.eid with
      | none => simp [dispatch, ha, hi] at h
      | some n => simp [dispatch, ha, hi] at h; exact .inr (.inr ⟨n, h.symm⟩)
    | getAttr a =>
      cases hi : be.invokeErr e.eid with
      | none => simp [dispatch, ha, hi] at h
      | some n => simp [dispatch, ha, hi] at h; exact .inr (.inr ⟨n, h.symm⟩)
  · simp [dispatch, ha] at h
    exact .inl h.symm

/-- C3: in a caller invocation of a locator action, retry applies only to
resolution: the native-call trace contains at most one mutating action
submission, and a resolution failure (`ElementNotFound` after the retry
budget) submits no action at all. -/
theorem action_dispatched_once (be : Backend) (snapshot : Nat → UITree) (st : AppState)
    (d : Nat) (sel : List SelectorStage) (tmo gap : Nat) (op : DispatchOp) :
    ((locatorAction be snapshot st d sel tmo gap op).2.2.countP isSubmitCall) ≤ 1
    ∧ ((locatorAction be snapshot st d sel tmo gap op).1 = .error .elementNotFound →
      ((locatorAction be snapshot st d sel tmo gap op).2.2.countP isSubmitCall) = 0) := by
  rcases hfw : firstWithTimeout snapshot d sel tmo gap with ⟨res, tick⟩
  cases res with
  | error err =>
    constructor
    · simp only [locatorAction, hfw]
      rw [countP_resolve_polls]
      omega
    · intro hres
      simp only [locatorAction, hfw]
      rw [countP_resolve_polls]
  | ok elt =>
    rcases hd : dispatch be st elt.attrs op with ⟨r, st1, tr⟩
    constructor
    · simp only [locatorAction, hfw, hd, List.countP_append, countP_resolve_polls,
        Nat.zero_add]
      have hle := dispatch_submit_le_one be st elt.attrs op
      rw [hd] at hle
      exact hle
    · intro hres
      exfalso
      simp only [locatorAction, hfw, hd] at hres
      have hcl := dispatch_error_classes be st elt.attrs op .elementNotFound
        (by rw [hd]; exact hres)
      rcases hcl with hc | hc | ⟨n, hc⟩ <;> simp at hc

/-- Witness for C3: a locator whose selector never matches exhausts its
retry budget and submits no action. -/
theorem action_dispatched_once_witness :
    ((locatorAction allAliveBackend (fun _ => emptyTree) emptyState 5 [.nameOnly "A"]
        50 10 .click).2.2.countP isSubmitCall) = 0 :=
  (action_dispatched_once allAliveBackend (fun _ => emptyTree) emptyState 5 [.nameOnly "A"]
    50 10 .click).2 rfl

/-- C10: `open_application` returns a handle already in the Ready state, so
locator creation, highlight and resolution via `first` on the fresh handle
are accepted and never fail with `ApplicationNotRunning`. -/
theorem open_application_ready (pid : Nat) (root : UITree) (sel : List SelectorStage)
    (tmo : Nat) (be : Backend) (st : AppState) (dur : Nat) (snapshot : Nat → UITree)
    (d tmo2 gap : Nat) :
    (open_application pid root).phase = .ready
    ∧ handleLocator (open_application pid root) sel tmo = .ok ⟨root, sel, tmo⟩
    ∧ (handleHighlight be st (open_application pid root) dur).1 ≠
        .error .applicationNotRunning
    ∧ (handleFirst (open_application pid root) snapshot d sel tmo2 gap).1 ≠
        .error .applicationNotRunning := by
  refine ⟨rfl, rfl, ?_, ?_⟩
  · intro hc
    simp only [handleHighlight, guardReady, open_application] at hc
    have hcl := dispatch_error_classes be st root.attrs (.highlight dur)
      .applicationNotRunning hc
    rcases hcl with hx | hx | ⟨n, hx⟩ <;> simp at hx
  · intro hc
    simp only [handleFirst, guardReady, open_application, firstWithTimeout] at hc
    have := firstAux_error_class snapshot d sel (tmo2 / gap) 0 .applicationNotRunning hc
    simp at this

/-- Witness for C10: a concrete freshly opened handle accepts locator
creation, highlight and resolution immediately. -/
theorem open_application_ready_witness :
    (open_application 42 treeBA).phase = .ready
    ∧ handleLocator (open_application 42 treeBA) [.nameOnly "A"] 50 =
        .ok ⟨treeBA, [.nameOnly "A"], 50⟩
    ∧ (handleHighlight allAliveBackend emptyState (open_application 42 treeBA) 1000).1 ≠
        .error .applicationNotRunning
    ∧ (handleFirst (open_application 42 treeBA) (fun _ => treeBA) 5 [.nameOnly "A"] 50 10).1 ≠
        .error .applicationNotRunning :=
  open_application_ready 42 treeBA [.nameOnly "A"] 50 allAliveBackend emptyState 1000
    (fun _ => treeBA) 5 50 10
